import Mathlib

/-!
Verification of the datathon repository's core text-processing and
workout-recommendation functions: a shallow embedding of
`simple-mcp/utils/workout_recommender.py`, `simple-mcp/utils/multi_parser.py`
and `simple-mcp/helpers_usda.py`, with theorems settling the specification
claims about them.  Python floats are modelled as rationals (`ℚ`), Python
`int` as `ℤ`, optional values as `Option`, and Python strings as Lean
strings (operated on through their character lists).
-/

namespace Datathon

/-! ### Python string primitives -/

/-- Characters matched by Python's `\s` (ASCII) and stripped by `str.strip()`. -/
def isWsChar (c : Char) : Bool :=
  c = ' ' || c = '\t' || c = '\n' || c = '\r' || c = '\x0B' || c = '\x0C'

/-- Line-break characters honoured by our model of `str.splitlines()`. -/
def isNlChar (c : Char) : Bool := c = '\n' || c = '\r'

/-- ASCII lowercasing, modelling Python `str.lower()` on the ASCII inputs used here. -/
def lowerChar (c : Char) : Char :=
  if 'A' ≤ c ∧ c ≤ 'Z' then Char.ofNat (c.toNat + 32) else c

def lowerL (l : List Char) : List Char := l.map lowerChar

def pyLower (s : String) : String := String.mk (lowerL s.data)

/-- Python `str.strip()` (left part). -/
def stripLeft (l : List Char) : List Char := l.dropWhile isWsChar

/-- Python `str.strip()` (right part). -/
def stripRight (l : List Char) : List Char := (l.reverse.dropWhile isWsChar).reverse

/-- Python `str.strip()`. -/
def stripL (l : List Char) : List Char := stripRight (stripLeft l)

def pyStrip (s : String) : String := String.mk (stripL s.data)

/-- Python's substring containment `pat in hay` on character lists. -/
def isSubstrL (pat : List Char) : List Char → Bool
  | [] => pat.isEmpty
  | hay@(_ :: t) => pat.isPrefixOf hay || isSubstrL pat t

/-- Python `pat in hay` on strings (contiguous substring, as `str.__contains__`). -/
def pyIn (pat hay : String) : Bool := isSubstrL pat.data hay.data

/-- Worker for `splitlines`; `acc` is the current line, reversed. -/
def splitlinesAux (acc : List Char) : List Char → List (List Char)
  | [] => if acc = [] then [] else [acc.reverse]
  | '\r' :: '\n' :: r => acc.reverse :: splitlinesAux [] r
  | '\n' :: r => acc.reverse :: splitlinesAux [] r
  | '\r' :: r => acc.reverse :: splitlinesAux [] r
  | c :: r => splitlinesAux (c :: acc) r

/-- Python `str.splitlines()` restricted to the `\n`, `\r`, `\r\n` boundaries
(the only line breaks occurring in the nutrition contexts handled here). -/
def splitlines (s : List Char) : List (List Char) := splitlinesAux [] s

/-! ### Number extraction (`_extract_number` in workout_recommender.py)

`re.search(r"(-?\d+(?:\.\d+)?)", s)`: the first optionally-signed decimal
number in the string, as a rational. -/

def digitsToNat (ds : List Char) : Nat :=
  ds.foldl (fun n c => 10 * n + (c.toNat - 48)) 0

/-- Parse `\d+(\.\d+)?` at the head of `l` (head is known to be a digit). -/
def parseNumFrom (l : List Char) : ℚ :=
  let intDigits := l.takeWhile Char.isDigit
  let rest := l.drop intDigits.length
  match rest with
  | '.' :: r2 =>
      let fracDigits := r2.takeWhile Char.isDigit
      if fracDigits = [] then (digitsToNat intDigits : ℚ)
      else (digitsToNat intDigits : ℚ) + (digitsToNat fracDigits : ℚ) / ((10 : ℚ) ^ fracDigits.length)
  | _ => (digitsToNat intDigits : ℚ)

/-- Leftmost match of `-?\d+(?:\.\d+)?`, scanning as `re.search` does. -/
def scanNumber : List Char → Option ℚ
  | [] => none
  | '-' :: rest =>
      match rest with
      | c :: _ => if c.isDigit then some (-(parseNumFrom rest)) else scanNumber rest
      | [] => none
  | c :: rest => if c.isDigit then some (parseNumFrom (c :: rest)) else scanNumber rest

/-- `_extract_number`: `None` on empty input, else the first signed decimal number. -/
def extract_number (l : List Char) : Option ℚ := scanNumber l

/-! ### Macros (`workout_recommender.py` lines 18-43) -/

structure Macros where
  protein_g : Option ℚ := none
  carbs_g : Option ℚ := none
  sugars_g : Option ℚ := none
  fat_g : Option ℚ := none
  kcal : Option ℚ := none
deriving DecidableEq

/-- `Macros.estimated_kcal`: the stored `kcal` when present, otherwise the
running sum `4·protein + 4·carbs + 9·fat` over the present fields, `None`
when none of those three fields is present. -/
def Macros.estimated_kcal (m : Macros) : Option ℚ :=
  match m.kcal with
  | some k => some k
  | none =>
      let acc : ℚ × Bool := (0, false)
      let acc := match m.protein_g with | some v => (acc.1 + 4 * v, true) | none => acc
      let acc := match m.carbs_g with | some v => (acc.1 + 4 * v, true) | none => acc
      let acc := match m.fat_g with | some v => (acc.1 + 9 * v, true) | none => acc
      if acc.2 then some acc.1 else none

/-! ### Macro synonym tables (`_MACRO_KEYS`) -/

def KEYS_protein : List String := ["protein"]
def KEYS_carbs : List String := ["carbs", "carbohydrate, by difference", "carbohydrates"]
def KEYS_sugars : List String := ["sugars", "total sugars", "sugar"]
def KEYS_fat : List String := ["fat", "total lipid (fat)", "lipid", "total fat"]
def KEYS_kcal : List String := ["energy", "calories", "kcal"]

/-! ### Line lookup and parsing (`_find_line_for_key`, `parse_macros_from_context`) -/

/-- `_find_line_for_key`: the first non-blank stripped line whose lowercase form
contains one of the synonyms as a substring. -/
def find_line_for_key (text : String) (keys : List String) : Option (List Char) :=
  ((splitlines text.data).map stripL |>.filter (fun l => l ≠ [])).find?
    (fun ln => keys.any (fun k => isSubstrL k.data (lowerL ln)))

/-- The tail after the first `:` or `-` of the line that is followed by at
least one character, modelling `re.search(r"[:\-]\s*([^\n\r]+)", line)` (the
`\s*` prefix of the captured group is harmless for number extraction, since
`extract_number` skips non-numeric characters). -/
def delimRest : List Char → Option (List Char)
  | [] => none
  | c :: t => if (c = ':' || c = '-') && t ≠ [] then some t else delimRest t

/-- One attempt of the fallback regex
`re.search(rf"{k}\s*[:\-]\s*([^\n\r]+)", ctx_low)` at the head of `l`:
the synonym, optional whitespace, a `:` or `-` delimiter, optional
whitespace, then a non-empty same-line capture. -/
def matchKeyAt (k : List Char) (l : List Char) : Option (List Char) :=
  if k.isPrefixOf l then
    match (l.drop k.length).dropWhile isWsChar with
    | c :: r3 =>
        if c = ':' || c = '-' then
          match r3.dropWhile isWsChar with
          | [] => none
          | g => some (g.takeWhile (fun c => !(isNlChar c)))
        else none
    | [] => none
  else none

/-- Leftmost position at which the fallback regex for synonym `k` matches. -/
def scanKeyMatch (k : List Char) : List Char → Option (List Char)
  | [] => none
  | l@(_ :: t) =>
      match matchKeyAt k l with
      | some g => some g
      | none => scanKeyMatch k t

/-- The fallback loop of `grab`: first synonym whose regex matches anywhere in
the lowercased context wins; its captured group is fed to `_extract_number`. -/
def fallbackGrab (ctxLow : List Char) : List String → Option ℚ
  | [] => none
  | k :: ks =>
      match scanKeyMatch k.data ctxLow with
      | some g => extract_number g
      | none => fallbackGrab ctxLow ks

/-- The inner `grab` of `parse_macros_from_context`. -/
def grab (context : String) (keys : List String) : Option ℚ :=
  match find_line_for_key context keys with
  | some line =>
      match delimRest line with
      | some rest => extract_number rest
      | none => extract_number line
  | none => fallbackGrab (lowerL context.data) keys

/-- `parse_macros_from_context`. -/
def parse_macros_from_context (context : String) : Macros :=
  { protein_g := grab context KEYS_protein
    carbs_g := grab context KEYS_carbs
    sugars_g := grab context KEYS_sugars
    fat_g := grab context KEYS_fat
    kcal := grab context KEYS_kcal }

/-! ### Workout focus selection (`_choose_focus`, lines 120-162) -/

/-- `_choose_focus`: goal overrides first, then macro-threshold heuristics,
first match wins; returns the focus and its rationale fragment. -/
def choose_focus (macros : Macros) (goal : String) : String × String :=
  let g := pyLower (if goal = "" then "balance" else goal)
  let protein := macros.protein_g.getD 0
  let carbs := macros.carbs_g.getD 0
  let sugars := macros.sugars_g.getD 0
  let fat := macros.fat_g.getD 0
  let sugar_ratio : ℚ := if carbs > 1 then sugars / carbs else 0
  let carb_bias := carbs ≥ 30
  let protein_bias := protein ≥ 15
  let fat_bias := fat ≥ 15
  let high_sugar := sugars ≥ 15 ∧ sugar_ratio ≥ (2 : ℚ) / 5
  if g ∈ (["strength", "power"] : List String) then
    ("strength", "You asked for strength, so we’ll bias toward heavier sets and longer rests.")
  else if g ∈ (["fat loss", "cut", "lean", "conditioning"] : List String) then
    ("conditioning", "Goal is conditioning/fat loss—more sustained heart rate with intervals.")
  else if g ∈ (["muscle", "hypertrophy", "build"] : List String) then
    ("hypertrophy", "Goal is muscle gain—moderate loads, higher volume.")
  else if carb_bias ∧ ¬ fat_bias then
    ("conditioning", "Higher carbohydrate intake supports glycogen-fueled intervals and aerobic work today.")
  else if protein_bias ∧ ¬ high_sugar then
    ("strength", "Higher protein and lower sugar favor productive strength work with solid recovery.")
  else if fat_bias ∧ ¬ carb_bias then
    ("mixed", "Higher fats with modest carbs suggest a mixed session: brief intensity plus strength.")
  else if high_sugar then
    ("conditioning", "Higher sugar spikes are well-utilized by short-to-mid interval conditioning.")
  else if carbs < 15 ∧ protein < 10 ∧ fat < 10 then
    ("active recovery", "This is a very low-energy food/drink. A light active recovery session (like a walk or stretching) is a great choice.")
  else
    ("mixed", "Balanced macros—today suits a mixed session (strength + conditioning).")

/-- The focus selector exactly as the specification words it (spec section
4.4): derived quantities `sugar_ratio`, `carb_bias`, `protein_bias`,
`fat_bias`, `high_sugar`, then the ordered decision list with first match
winning.  Focus labels use the source's strings (the spec's `active-recovery`
enumeration member is the string `"active recovery"`). -/
def spec_choose_focus (macros : Macros) (goal : String) : String :=
  let g := pyLower (if goal = "" then "balance" else goal)
  let protein := macros.protein_g.getD 0
  let carbs := macros.carbs_g.getD 0
  let sugars := macros.sugars_g.getD 0
  let fat := macros.fat_g.getD 0
  let sugar_ratio : ℚ := if carbs > 1 then sugars / carbs else 0
  let carb_bias := carbs ≥ 30
  let protein_bias := protein ≥ 15
  let fat_bias := fat ≥ 15
  let high_sugar := sugars ≥ 15 ∧ sugar_ratio ≥ (2 : ℚ) / 5
  if g ∈ (["strength", "power"] : List String) then "strength"
  else if g ∈ (["fat loss", "cut", "lean", "conditioning"] : List String) then "conditioning"
  else if g ∈ (["muscle", "hypertrophy", "build"] : List String) then "hypertrophy"
  else if carb_bias ∧ ¬ fat_bias then "conditioning"
  else if protein_bias ∧ ¬ high_sugar then "strength"
  else if fat_bias ∧ ¬ carb_bias then "mixed"
  else if high_sugar then "conditioning"
  else if carbs < 15 ∧ protein < 10 ∧ fat < 10 then "active recovery"
  else "mixed"

/-! ### Plan building (`_default_blocks_for_focus`, lines 165-244)

The source computes `int(m * c)` with float constants `c`; on the clamped
range `m ∈ [15,75]` these agree exactly with the rational floors
`⌊3m/5⌋, ⌊m/4⌋, ⌊m/2⌋, ⌊7m/20⌋, ⌊3m/10⌋, ⌊2m/5⌋`, which is how they are
written below. -/

/-- `max(15, min(75, int(minutes or 30)))`: Python `or` turns `0` into the
default `30` before clamping. -/
def clampMinutes (minutes : Int) : Int :=
  max 15 (min 75 (if minutes = 0 then 30 else minutes))

/-- The per-block minute allocations of `_default_blocks_for_focus`, in block
order, including the conditional trailing block (emitted only when its
remainder allocation is at least 5 minutes). -/
def blockAllocs (focus : String) (minutes : Int) : List Int :=
  let m := clampMinutes minutes
  if focus = "strength" then
    let main := max 10 (3 * m / 5)
    let aux := max 5 (m / 4)
    let cond := m - main - aux
    [main, aux] ++ (if 5 ≤ cond then [cond] else [])
  else if focus = "hypertrophy" then
    let main := max 10 (m / 2)
    let giant := max 5 (7 * m / 20)
    let fin := m - main - giant
    [main, giant] ++ (if 5 ≤ fin then [fin] else [])
  else if focus = "conditioning" then
    let work := max 8 (m / 2)
    let tempo := max 5 (3 * m / 10)
    let core := m - work - tempo
    [work, tempo] ++ (if 5 ≤ core then [core] else [])
  else if focus = "active recovery" then
    [2 * m / 5, 3 * m / 5]
  else
    let strength := max 8 (7 * m / 20)
    let metcon := max 6 (7 * m / 20)
    let mobility := m - strength - metcon
    [strength, metcon] ++ (if 5 ≤ mobility then [mobility] else [])

/-- The experience-tiered warm-up/cool-down template pair computed inside
`_default_blocks_for_focus` (lines 230-241).  Note it is a local computation
there: the function's return value does not include it. -/
def tier_templates (exp : String) : List String × List String :=
  if exp ∈ (["beginner", "novice"] : List String) then
    (["5 min easy cardio",
      "2 rounds: 10 air squats, 10 band pull-aparts, 10 hip hinges"],
     ["3–5 min easy cardio", "2–3 stretches for the trained areas"])
  else
    (["4–6 min zone-1/2 cardio",
      "Movement prep: dynamic splits, inchworms, band rows"],
     ["Breathing down-shift (2–3 min)", "Light mobility in tight areas"])

/-- `_default_blocks_for_focus`: returns `(blocks, rationale, intensity)`.
The block strings embed exactly the minute counts of `blockAllocs`. -/
def default_blocks_for_focus (focus : String) (minutes : Int) (experience : String) :
    List String × String × String :=
  let exp := pyLower (if experience = "" then "beginner" else experience)
  let m := clampMinutes minutes
  let br : List String × String :=
    if focus = "strength" then
      let main := max 10 (3 * m / 5)
      let aux := max 5 (m / 4)
      let cond := m - main - aux
      (["Main Strength (" ++ toString main ++ " min): 4–5 sets of 3–6 reps on a compound lift (e.g., Squat or Deadlift). Rest 2–3 min.",
        "Accessory (" ++ toString aux ++ " min): 2–3 exercises, 2–3 sets of 8–12 reps (e.g., RDL, Row, Split Squat)."]
        ++ (if 5 ≤ cond then ["Light Conditioning (" ++ toString cond ++ " min): brisk walk or easy bike for recovery."] else []),
       "Strength focus improves neural drive and mechanical tension. Keep form crisp; rest long.")
    else if focus = "hypertrophy" then
      let main := max 10 (m / 2)
      let giant := max 5 (7 * m / 20)
      let fin := m - main - giant
      (["Hypertrophy Sets (" ++ toString main ++ " min): 3–4 sets of 8–12 reps on 1–2 big lifts (e.g., Bench + Row). Rest 60–90s.",
        "Volume Block (" ++ toString giant ++ " min): 2 rounds of a 3-move tri-set (e.g., DB Press, Lat Pulldown, Face Pull), moderate load."]
        ++ (if 5 ≤ fin then ["Finisher (" ++ toString fin ++ " min): sled push or 5-min tempo bike."] else []),
       "Hypertrophy focus uses moderate loads and volume to maximize muscle stimulus.")
    else if focus = "conditioning" then
      let work := max 8 (m / 2)
      let tempo := max 5 (3 * m / 10)
      let core := m - work - tempo
      (["Intervals (" ++ toString work ++ " min): 8–12 rounds of 30s hard / 60s easy (bike/row/run).",
        "Tempo (" ++ toString tempo ++ " min): continuous zone-2/3 effort you can sustain."]
        ++ (if 5 ≤ core then ["Core/Carry (" ++ toString core ++ " min): plank holds + farmer carries."] else []),
       "Intervals + tempo train aerobic base and lactate clearance; great use of higher carbs/sugars.")
    else if focus = "active recovery" then
      (["Light Cardio (" ++ toString (2 * m / 5) ++ " min): Easy walk, bike, or elliptical. Should be able to hold a conversation.",
        "Mobility (" ++ toString (3 * m / 5) ++ " min): Focus on 3-4 key areas. Examples:\n  - 10-15 Cat/Cows\n  - 2 min Couch Stretch (each side)\n  - 2 min Pigeon Pose (each side)\n  - 10-15 T-Spine Rotations"],
       "This is a low-energy day, so we'll focus on light movement and mobility to aid recovery and feel good.")
    else
      let strength := max 8 (7 * m / 20)
      let metcon := max 6 (7 * m / 20)
      let mobility := m - strength - metcon
      (["Strength Primer (" ++ toString strength ++ " min): 3x5 on one lift (e.g., Front Squat) + 2x10 accessory.",
        "Short MetCon (" ++ toString metcon ++ " min): 10-min AMRAP: 8 KB swings, 6 push-ups, 10 air squats."]
        ++ (if 5 ≤ mobility then ["Mobility (" ++ toString mobility ++ " min): hips, T-spine, calves (slow controlled)."] else []),
       "Mixed session balances force production with metabolic conditioning without overreaching.")
  let _tier := tier_templates exp
  let intensity :=
    if focus = "strength" then "moderate"
    else if focus = "hypertrophy" then "moderate"
    else if focus = "conditioning" then "high"
    else if focus = "mixed" then "moderate"
    else if focus = "active recovery" then "low"
    else "low"
  (br.1, br.2, intensity)

/-- `_nutrition_tip`. -/
def nutrition_tip (macros : Macros) (focus : String) : String :=
  let protein := macros.protein_g.getD 0
  let carbs := macros.carbs_g.getD 0
  let sugars := macros.sugars_g.getD 0
  if focus ∈ (["strength", "hypertrophy"] : List String) then
    let tip := "Have 20–35 g protein within ~2 hours post-lift; add 20–60 g carbs if doing volume."
    if protein < 15 then tip ++ " (Protein looked low—consider a serving of yogurt/shake/chicken.)" else tip
  else if focus = "conditioning" then
    let tip := "Sip water; if intervals exceed 25–30 min, add electrolytes. Post-workout carbs (30–60 g) help."
    if sugars ≥ 15 ∧ carbs ≥ 30 then tip ++ " (High sugars today—put them to work with those intervals!)" else tip
  else if focus = "active recovery" then
    "Great job on the light movement. Focus on hydration and a standard, balanced meal."
  else
    "Balance plate post-session: lean protein, veggies, and a fist of carbs. Hydrate well."

/-! ### The workout plan (`WorkoutPlan`, `recommend_workout_from_context`) -/

structure WorkoutPlan where
  minutes : Int
  intensity : String
  focus : String
  blocks : List String
  warmup : List String
  cooldown : List String
  rationale : String
  nutrition_tip : String
  product_hint : Option String := none
  kcal_est : Option ℚ := none
  experience : String := "beginner"
deriving DecidableEq

/-- `recommend_workout_from_context` (lines 270-304): parses macros, picks a
focus, builds blocks, and assembles the plan with fixed warm-up/cool-down
lists. -/
def recommend_workout_from_context (context : String) (goal : String := "balance")
    (minutes : Int := 30) (experience : String := "beginner")
    (product_hint : Option String := none) : WorkoutPlan :=
  let macros := parse_macros_from_context context
  let fw := choose_focus macros goal
  let bri := default_blocks_for_focus fw.1 minutes experience
  let kcal_est := macros.estimated_kcal
  { minutes := clampMinutes minutes
    intensity := bri.2.2
    focus := fw.1
    blocks := bri.1
    warmup := ["Joint CARs (neck/shoulders/hips) 30–45s each", "Light cardio 3–5 min"]
    cooldown := ["Nasal breathing 2–3 min (box or 4-7-8)", "Targeted mobility 3–5 min"]
    rationale := fw.2 ++ " " ++ bri.2.1
    nutrition_tip := nutrition_tip macros fw.1
    product_hint := product_hint
    kcal_est := kcal_est
    experience := experience }

/-! ### Term extraction (`multi_parser.py`, lines 176-254)

The spaCy pipeline `nlp` is an external NLP capability; it is modelled as an
oracle argument `doc : String → SpacyDoc` supplying the noun chunks and the
NOUN/PROPN token texts that the source reads off the parsed document.  All
claims about the separator-split path hold for every oracle. -/

/-- `_STOPWORDS`. -/
def STOPWORDS : List String :=
  ["nutrition", "nutritional", "ingredients", "ingredient",
   "info", "information", "allergens", "recall", "recalls",
   "workout", "exercise", "train", "gym", "work", "out",
   "excercise",
   "for", "on", "of", "about", "in", "what", "is", "are", "the",
   "a", "an", "i", "ate", "eat", "eating", "should", "how", "me", "my",
   "give", "tell", "show", "can", "after", "please", "and",
   "drank", "drink", "had", "plan"]

/-- Regex split on `,| and | & ` (IGNORECASE), scanning left to right;
`cur` is the current piece, reversed. -/
def splitSepAux (cur : List Char) : List Char → List (List Char)
  | [] => [cur.reverse]
  | ',' :: t => cur.reverse :: splitSepAux [] t
  | ' ' :: '&' :: ' ' :: r => cur.reverse :: splitSepAux [] r
  | ' ' :: a :: n :: d :: ' ' :: r =>
      if lowerChar a = 'a' ∧ lowerChar n = 'n' ∧ lowerChar d = 'd' then
        cur.reverse :: splitSepAux [] r
      else splitSepAux (' ' :: cur) (a :: n :: d :: ' ' :: r)
  | c :: t => splitSepAux (c :: cur) t

/-- Python `str.split()` (whitespace words, no empties); `cur` reversed. -/
def pyWordsAux (cur : List Char) : List Char → List String
  | [] => if cur = [] then [] else [String.mk cur.reverse]
  | c :: t =>
      if isWsChar c then
        if cur = [] then pyWordsAux [] t else String.mk cur.reverse :: pyWordsAux [] t
      else pyWordsAux (c :: cur) t

def pyWords (l : List Char) : List String := pyWordsAux [] l

/-- Worker for `collapseWs`: `prevWs` records whether the previous character
was whitespace (so the run has already emitted its single space). -/
def collapseWsAux (prevWs : Bool) : List Char → List Char
  | [] => []
  | c :: t =>
      if isWsChar c then
        if prevWs then collapseWsAux true t else ' ' :: collapseWsAux true t
      else c :: collapseWsAux false t

/-- `re.sub(r"\s+", " ", s)`: collapse whitespace runs to single spaces. -/
def collapseWs (l : List Char) : List Char := collapseWsAux false l

/-- `_clean_phrase`: strip, lowercase, delete `?`, collapse whitespace, strip. -/
def cleanPhrase (p : List Char) : List Char :=
  let s := lowerL (stripL p)
  let s := s.filter (fun c => c ≠ '?')
  stripL (collapseWs s)

/-- `_is_stop_phrase`: empty phrase, or every whitespace-word a stopword. -/
def is_stop_phrase (phrase : String) : Bool :=
  let ws := pyWords (lowerL phrase.data)
  ws = [] || ws.all (fun w => w ∈ STOPWORDS)

/-- One spaCy noun chunk: its text and its token texts. -/
structure SpacyChunk where
  text : String
  toks : List String

/-- The parts of a spaCy document the source reads: noun chunks, and the
texts of NOUN/PROPN tokens. -/
structure SpacyDoc where
  chunks : List SpacyChunk
  posToks : List String

/-- The body of the candidate loop (lines 216-228): clean the part, skip it
when blank or entirely stopwords, strip its leading stopword words, and
append the result when non-empty and not yet seen. -/
def candStep (cands : List String) (p : List Char) : List String :=
  let cleaned := cleanPhrase p
  if cleaned ≠ [] ∧ ¬ is_stop_phrase (String.mk cleaned) then
    let ws := (pyWords cleaned).dropWhile (fun w => w ∈ STOPWORDS)
    let fp := pyStrip (String.intercalate " " ws)
    if fp ≠ "" ∧ fp ∉ cands then cands ++ [fp] else cands
  else cands

/-- The candidate list built by the separator-split path of
`extract_product_search_terms_multi` (lines 210-228): split on the list
separators, keep parts with non-blank strip, then run the candidate loop. -/
def splitCandidates (query : String) : List String :=
  let q := pyStrip query
  let parts0 := (splitSepAux [] q.data).filter (fun p => stripL p ≠ [])
  let parts := if parts0.length ≤ 1 then [q.data] else parts0
  parts.foldl candStep []

/-- Order-preserving first-occurrence deduplication (the `seen` set loop). -/
def pyDedupAux (seen : List String) : List String → List String
  | [] => []
  | p :: t => if p ∈ seen then pyDedupAux seen t else p :: pyDedupAux (p :: seen) t

def pyDedup (l : List String) : List String := pyDedupAux [] l

/-- `extract_product_search_terms_multi`: the separator-split path
short-circuits when it yields at least two candidates; otherwise noun-chunk
extraction and then bare NOUN/PROPN tokens are consulted via the oracle. -/
def extract_product_search_terms_multi (doc : String → SpacyDoc) (query : String)
    (max_terms : Nat := 6) : List String :=
  let q := pyStrip query
  let candidates := splitCandidates query
  if candidates ≠ [] ∧ 1 < candidates.length then candidates.take max_terms
  else
    let d := doc (pyLower q)
    let candidates := d.chunks.foldl (fun cands ch =>
        if is_stop_phrase ch.text then cands
        else
          let phrase := pyStrip (String.intercalate " " (ch.toks.filter (fun t => ¬ t ∈ STOPWORDS)))
          if phrase ≠ "" ∧ phrase ∉ cands ∧ ¬ cands.any (fun c => pyIn phrase c) then
            cands ++ [phrase]
          else cands) candidates
    let tokens := d.posToks.filter (fun t => ¬ t ∈ STOPWORDS)
    let candidates := if candidates = [] ∧ tokens ≠ [] then candidates ++ tokens else candidates
    (pyDedup candidates).take max_terms

/-- An oracle for an empty spaCy pipeline result (what `nlp` yields on the
empty string). -/
def emptyDoc : String → SpacyDoc := fun _ => ⟨[], []⟩

/-! ### USDA result ranking (`helpers_usda.py`, lines 59-87)

A candidate record is the part of an FDC search hit the ranker reads.  A
field is `none` when the key is missing from the provider's JSON object
(Python `dict.get` then yields its default). -/

structure FdcHit where
  description : Option String := none
  brandOwner : Option String := none
  ingredients : Option String := none
  foodCategory : Option String := none
deriving DecidableEq

/-- Python truthiness of an optional string (`None` and `""` are falsy). -/
def pyTruthy : Option String → Bool
  | none => false
  | some s => s ≠ ""

/-- The junk-description markers of `_score_fdc_hit`. -/
def JUNK : List String :=
  ["bar", "powder", "supplement", "shake", "cereal", "snack", "energy"]

/-- `_score_fdc_hit`: the additive heuristic score, accumulated exactly as the
source does (the score is float-valued there but every increment is an
integer, so it is modelled in `ℤ`). -/
def score_fdc_hit (term : String) (f : FdcHit) : Int :=
  let t := pyLower (pyStrip term)
  let desc := pyLower (f.description.getD "")
  let ing := pyLower (f.ingredients.getD "")
  let score : Int := 0
  let score := if desc = t ∨ t.data.isPrefixOf desc.data then score + 10 else score
  let score := if pyIn t desc then score + 6 else score
  let score := if t ≠ "" ∧ pyIn t ing then score + 4 else score
  let score := if pyTruthy f.brandOwner then score - 2 else score + 1
  let cat := pyLower (f.foodCategory.getD "")
  let score := if pyIn t cat then score + 2 else score
  let score := if JUNK.any (fun bt => pyIn bt desc) then score - 3 else score
  score

/-- The score stage as the specification words it: one additive sum of
independently-conditioned literal weights. -/
def spec_score (term : String) (f : FdcHit) : Int :=
  let t := pyLower (pyStrip term)
  let desc := pyLower (f.description.getD "")
  let ing := pyLower (f.ingredients.getD "")
  let cat := pyLower (f.foodCategory.getD "")
  (if desc = t ∨ t.data.isPrefixOf desc.data then 10 else 0)
    + (if pyIn t desc then 6 else 0)
    + (if t ≠ "" ∧ pyIn t ing then 4 else 0)
    + (if pyTruthy f.brandOwner then -2 else 1)
    + (if pyIn t cat then 2 else 0)
    + (if JUNK.any (fun bt => pyIn bt desc) then -3 else 0)

/-- Python `max(l, key=key)`: fold keeping the current element unless a later
one scores strictly higher, so the first maximal element wins. -/
def pyMax {α : Type} (key : α → Int) : List α → Option α
  | [] => none
  | f :: fs => some (fs.foldl (fun best g => if key best < key g then g else best) f)

/-- The filter stage of `_pick_best_fdc_hit`: description or ingredients
contains the term (case-insensitively), or both fields are missing. -/
def filteredHits (term : String) (foods : List FdcHit) : List FdcHit :=
  foods.filter (fun f =>
    pyIn (pyLower term) (pyLower (f.description.getD ""))
      || pyIn (pyLower term) (pyLower (f.ingredients.getD ""))
      || (f.description = none && f.ingredients = none))

/-- The candidate list scanned by the selection stage: the filtered hits, or
the full input when the filter keeps nothing. -/
def candidateHits (term : String) (foods : List FdcHit) : List FdcHit :=
  if filteredHits term foods = [] then foods else filteredHits term foods

/-- `_pick_best_fdc_hit`. -/
def pick_best_fdc_hit (term : String) (foods : List FdcHit) : Option FdcHit :=
  match foods with
  | [] => none
  | _ :: _ => pyMax (score_fdc_hit term) (candidateHits term foods)

/-- Selection as the specification words it: the first candidate in scan
order whose score is maximal. -/
def firstMaxBy {α : Type} (key : α → Int) (l : List α) : Option α :=
  l.find? (fun f => l.all (fun g => key g ≤ key f))

/-- All synonym labels of the five macro keys. -/
def ALL_MACRO_KEYS : List String :=
  KEYS_protein ++ KEYS_carbs ++ KEYS_sugars ++ KEYS_fat ++ KEYS_kcal

/-! ## Lemmas -/

theorem isSubstrL_iff (pat hay : List Char) : isSubstrL pat hay = true ↔ pat <:+: hay := by
  induction hay with
  | nil => simp [isSubstrL, List.isEmpty_iff, List.infix_nil]
  | cons c t ih =>
      simp [isSubstrL, Bool.or_eq_true, List.isPrefixOf_iff_prefix, ih, List.infix_cons_iff]

theorem splitlinesAux_within (acc s : List Char) :
    ∀ l ∈ splitlinesAux acc s, l <:+: acc.reverse ++ s := by
  induction acc, s using splitlinesAux.induct
  case case1 => intro l hl; simp [splitlinesAux] at hl
  case case2 h =>
      intro l hl
      simp [splitlinesAux, h] at hl
      subst hl; simp
  case case3 acc r ih =>
      intro l hl
      simp only [splitlinesAux, List.mem_cons] at hl
      rcases hl with rfl | hl
      · exact (List.prefix_append _ _).isInfix
      · have h1 := ih l hl
        simp only [List.reverse_nil, List.nil_append] at h1
        exact h1.trans ((List.suffix_cons '\n' r).trans
          ((List.suffix_cons '\r' ('\n' :: r)).trans (List.suffix_append _ _))).isInfix
  case case4 acc r ih =>
      intro l hl
      simp only [splitlinesAux, List.mem_cons] at hl
      rcases hl with rfl | hl
      · exact (List.prefix_append _ _).isInfix
      · have h1 := ih l hl
        simp only [List.reverse_nil, List.nil_append] at h1
        exact h1.trans ((List.suffix_cons '\n' r).trans (List.suffix_append _ _)).isInfix
  case case5 acc r _ ih =>
      intro l hl
      simp only [splitlinesAux, List.mem_cons] at hl
      rcases hl with rfl | hl
      · exact (List.prefix_append _ _).isInfix
      · have h1 := ih l hl
        simp only [List.reverse_nil, List.nil_append] at h1
        exact h1.trans ((List.suffix_cons '\r' r).trans (List.suffix_append _ _)).isInfix
  case case6 acc c r h1 h2 h3 ih =>
      intro l hl
      rw [splitlinesAux.eq_5 acc c r h1 h2 h3] at hl
      have h4 := ih l hl
      simpa [List.append_assoc] using h4

theorem splitlines_within (s : List Char) : ∀ l ∈ splitlines s, l <:+: s := by
  intro l hl
  simpa using splitlinesAux_within [] s l hl

theorem stripL_within (l : List Char) : stripL l <:+: l := by
  have h1 : stripLeft l <:+ l := List.dropWhile_suffix isWsChar
  have h2 : stripRight (stripLeft l) <+: stripLeft l := by
    rw [stripRight, ← List.reverse_suffix]
    simpa using List.dropWhile_suffix isWsChar
  exact (h2.isInfix).trans h1.isInfix

theorem matchKeyAt_starts (k l g : List Char) (h : matchKeyAt k l = some g) : k <+: l := by
  unfold matchKeyAt at h
  split at h
  · exact List.isPrefixOf_iff_prefix.mp (by assumption)
  · exact absurd h (by simp)

theorem scanKeyMatch_isInfix (k : List Char) :
    ∀ (s g : List Char), scanKeyMatch k s = some g → k <:+: s := by
  intro s
  induction s with
  | nil => intro g h; simp [scanKeyMatch] at h
  | cons c t ih =>
      intro g h
      simp only [scanKeyMatch] at h
      cases hm : matchKeyAt k (c :: t) with
      | some g' => exact (matchKeyAt_starts _ _ _ hm).isInfix
      | none =>
          rw [hm] at h
          exact (ih g h).trans (List.suffix_cons c t).isInfix

theorem find_line_none (ctx : String) (keys : List String)
    (h : ∀ k ∈ keys, isSubstrL k.data (lowerL ctx.data) = false) :
    find_line_for_key ctx keys = none := by
  cases hf : find_line_for_key ctx keys with
  | none => rfl
  | some ln =>
      exfalso
      have hpred := List.find?_some hf
      have hmem := List.mem_of_find?_eq_some hf
      simp only [List.any_eq_true] at hpred
      obtain ⟨k, hk, hsub⟩ := hpred
      obtain ⟨hmem2, -⟩ := List.mem_filter.mp hmem
      obtain ⟨l0, hl0, rfl⟩ := List.mem_map.mp hmem2
      have hinf : stripL l0 <:+: ctx.data := (stripL_within l0).trans (splitlines_within _ _ hl0)
      have h2 : k.data <:+: lowerL ctx.data :=
        ((isSubstrL_iff _ _).mp hsub).trans (hinf.map lowerChar)
      have h3 := (isSubstrL_iff k.data (lowerL ctx.data)).mpr h2
      rw [h k hk] at h3
      exact Bool.noConfusion h3

theorem fallbackGrab_none (ctx : List Char) (keys : List String)
    (h : ∀ k ∈ keys, isSubstrL k.data ctx = false) : fallbackGrab ctx keys = none := by
  induction keys with
  | nil => rfl
  | cons k ks ih =>
      simp only [fallbackGrab]
      cases hm : scanKeyMatch k.data ctx with
      | some g =>
          exfalso
          have h2 := (isSubstrL_iff _ _).mpr (scanKeyMatch_isInfix _ _ _ hm)
          rw [h k (by simp)] at h2
          exact Bool.noConfusion h2
      | none => exact ih (fun k2 hk2 => h k2 (by simp [hk2]))

theorem grab_none (ctx : String) (keys : List String)
    (h : ∀ k ∈ keys, isSubstrL k.data (lowerL ctx.data) = false) :
    grab ctx keys = none := by
  unfold grab
  rw [find_line_none ctx keys h]
  exact fallbackGrab_none _ _ h

theorem find?_split {α : Type} (p : α → Bool) :
    ∀ (l : List α) (a : α), l.find? p = some a →
      p a = true ∧ ∃ l1 l2, l = l1 ++ a :: l2 ∧ ∀ x ∈ l1, p x = false := by
  intro l
  induction l with
  | nil => intro a h; simp at h
  | cons b t ih =>
      intro a h
      cases hb : p b with
      | true =>
          rw [List.find?_cons, hb] at h
          injection h with h
          subst h
          exact ⟨hb, [], t, rfl, by simp⟩
      | false =>
          rw [List.find?_cons, hb] at h
          obtain ⟨pa, l1, l2, heq, h1⟩ := ih a h
          refine ⟨pa, b :: l1, l2, by rw [heq]; rfl, ?_⟩
          intro x hx
          rcases List.mem_cons.mp hx with rfl | hx2
          · exact hb
          · exact h1 x hx2

theorem parse_macros_none (ctx : String)
    (h : ∀ k ∈ ALL_MACRO_KEYS, isSubstrL k.data (lowerL ctx.data) = false) :
    parse_macros_from_context ctx =
      { protein_g := none, carbs_g := none, sugars_g := none, fat_g := none, kcal := none } := by
  have hsub : ∀ keys : List String, (∀ k ∈ keys, k ∈ ALL_MACRO_KEYS) →
      grab ctx keys = none := by
    intro keys hkeys
    exact grab_none ctx keys (fun k hk => h k (hkeys k hk))
  have hp := hsub KEYS_protein (by intro k hk; simp [ALL_MACRO_KEYS]; tauto)
  have hc := hsub KEYS_carbs (by intro k hk; simp [ALL_MACRO_KEYS]; tauto)
  have hs := hsub KEYS_sugars (by intro k hk; simp [ALL_MACRO_KEYS]; tauto)
  have hf := hsub KEYS_fat (by intro k hk; simp [ALL_MACRO_KEYS]; tauto)
  have hk := hsub KEYS_kcal (by intro k hk; simp [ALL_MACRO_KEYS]; tauto)
  simp [parse_macros_from_context, hp, hc, hs, hf, hk]

theorem int_range_decide (P : Int → Prop) [DecidablePred P]
    (h : ∀ k : Fin 61, P (15 + (k : Nat))) :
    ∀ m : Int, 15 ≤ m → m ≤ 75 → P m := by
  intro m h1 h2
  have hk : (m - 15).toNat < 61 := by omega
  have hm : m = 15 + (((⟨(m - 15).toNat, hk⟩ : Fin 61) : Nat) : Int) := by
    simp; omega
  rw [hm]
  exact h _

theorem strength_sum_le : ∀ m : Int, 15 ≤ m → m ≤ 75 →
    ([max 10 (3 * m / 5), max 5 (m / 4)] ++
      (if 5 ≤ m - max 10 (3 * m / 5) - max 5 (m / 4) then
        [m - max 10 (3 * m / 5) - max 5 (m / 4)] else [])).sum ≤ m :=
  int_range_decide _ (by decide)

theorem hypertrophy_sum_le : ∀ m : Int, 15 ≤ m → m ≤ 75 →
    ([max 10 (m / 2), max 5 (7 * m / 20)] ++
      (if 5 ≤ m - max 10 (m / 2) - max 5 (7 * m / 20) then
        [m - max 10 (m / 2) - max 5 (7 * m / 20)] else [])).sum ≤ m :=
  int_range_decide _ (by decide)

theorem conditioning_sum_le : ∀ m : Int, 15 ≤ m → m ≤ 75 →
    ([max 8 (m / 2), max 5 (3 * m / 10)] ++
      (if 5 ≤ m - max 8 (m / 2) - max 5 (3 * m / 10) then
        [m - max 8 (m / 2) - max 5 (3 * m / 10)] else [])).sum ≤ m :=
  int_range_decide _ (by decide)

theorem recovery_sum_le : ∀ m : Int, 15 ≤ m → m ≤ 75 →
    ([2 * m / 5, 3 * m / 5] : List Int).sum ≤ m :=
  int_range_decide _ (by decide)

theorem mixed_sum_le : ∀ m : Int, 15 ≤ m → m ≤ 75 →
    ([max 8 (7 * m / 20), max 6 (7 * m / 20)] ++
      (if 5 ≤ m - max 8 (7 * m / 20) - max 6 (7 * m / 20) then
        [m - max 8 (7 * m / 20) - max 6 (7 * m / 20)] else [])).sum ≤ m :=
  int_range_decide _ (by decide)

theorem clampMinutes_bounds (minutes : Int) :
    15 ≤ clampMinutes minutes ∧ clampMinutes minutes ≤ 75 := by
  unfold clampMinutes
  constructor
  · exact le_max_left _ _
  · exact max_le (by norm_num) (min_le_left _ _)

theorem candStep_nodup (cands : List String) (p : List Char) (h : cands.Nodup) :
    (candStep cands p).Nodup := by
  simp only [candStep]
  split_ifs with h1 h2
  · rw [List.nodup_append]
    refine ⟨h, List.nodup_singleton _, ?_⟩
    intro x hx hx2
    rw [List.mem_singleton] at hx2
    exact h2.2 (hx2 ▸ hx)
  · exact h
  · exact h

theorem foldl_candStep_nodup (parts : List (List Char)) :
    ∀ cands : List String, cands.Nodup → (parts.foldl candStep cands).Nodup := by
  induction parts with
  | nil => intro cands h; exact h
  | cons p t ih => intro cands h; exact ih _ (candStep_nodup cands p h)

theorem splitCandidates_nodup (query : String) : (splitCandidates query).Nodup := by
  unfold splitCandidates
  exact foldl_candStep_nodup _ [] List.nodup_nil

theorem pyMaxFold {α : Type} (key : α → Int) :
    ∀ (fs : List α) (best : α),
      ∃ l1 l2, best :: fs
          = l1 ++ (fs.foldl (fun b g => if key b < key g then g else b) best) :: l2
        ∧ (∀ x ∈ l1, key x < key (fs.foldl (fun b g => if key b < key g then g else b) best))
        ∧ (∀ x ∈ l2, key x ≤ key (fs.foldl (fun b g => if key b < key g then g else b) best)) := by
  intro fs
  induction fs with
  | nil =>
      intro best
      exact ⟨[], [], rfl, by simp, by simp⟩
  | cons g gs ih =>
      intro best
      by_cases hbg : key best < key g
      · obtain ⟨l1, l2, heq, hlt, hle⟩ := ih g
        have hstep : (g :: gs).foldl (fun b g => if key b < key g then g else b) best
            = gs.foldl (fun b g => if key b < key g then g else b) g := by
          simp [List.foldl_cons, if_pos hbg]
        rw [hstep]
        refine ⟨best :: l1, l2, by rw [List.cons_append, ← heq], ?_, hle⟩
        intro x hx
        rcases List.mem_cons.mp hx with rfl | hx2
        · cases l1 with
          | nil =>
              have h1 : g = gs.foldl (fun b g => if key b < key g then g else b) g := by
                have h2 := heq
                simp at h2
                exact h2.1
              exact h1 ▸ hbg
          | cons a l1' =>
              have ha : a = g := by
                have h2 := heq
                simp at h2
                exact h2.1.symm
              exact lt_trans hbg (ha ▸ hlt a (by simp))
        · exact hlt x hx2
      · obtain ⟨l1, l2, heq, hlt, hle⟩ := ih best
        have hstep : (g :: gs).foldl (fun b g => if key b < key g then g else b) best
            = gs.foldl (fun b g => if key b < key g then g else b) best := by
          simp [List.foldl_cons, if_neg hbg]
        rw [hstep]
        cases l1 with
        | nil =>
            have hr : best = gs.foldl (fun b g => if key b < key g then g else b) best ∧
                gs = l2 := by
              have h2 := heq
              simp at h2
              exact h2
            refine ⟨[], g :: gs, ?_, by simp, ?_⟩
            · simp [← hr.1]
            · intro x hx
              rcases List.mem_cons.mp hx with rfl | hx2
              · exact hr.1 ▸ (not_lt.mp hbg)
              · rw [hr.2] at hx2
                exact hle x hx2
        | cons a l1' =>
            have ha : a = best ∧
                gs = l1' ++ (gs.foldl (fun b g => if key b < key g then g else b) best) :: l2 := by
              have h2 := heq
              simp at h2
              exact ⟨h2.1.symm, h2.2⟩
            refine ⟨best :: g :: l1', l2, ?_, ?_, hle⟩
            · rw [List.cons_append, List.cons_append, ← ha.2]
            · intro x hx
              rcases List.mem_cons.mp hx with rfl | hx2
              · exact ha.1 ▸ hlt a (by simp)
              · rcases List.mem_cons.mp hx2 with rfl | hx3
                · exact lt_of_le_of_lt (not_lt.mp hbg) (ha.1 ▸ hlt a (by simp))
                · exact hlt x (by simp [hx3])

theorem find?_prefix_false {α : Type} (p : α → Bool) (l2 : List α) (a : α) :
    ∀ l1 : List α, (∀ x ∈ l1, p x = false) → p a = true →
      (l1 ++ a :: l2).find? p = some a := by
  intro l1
  induction l1 with
  | nil => intro _ h2; simp [List.find?_cons, h2]
  | cons b t ih =>
      intro h1 h2
      rw [List.cons_append, List.find?_cons, h1 b (by simp)]
      exact ih (fun x hx => h1 x (by simp [hx])) h2

theorem pyMax_eq_firstMaxBy {α : Type} (key : α → Int) (l : List α) :
    pyMax key l = firstMaxBy key l := by
  cases l with
  | nil => rfl
  | cons f fs =>
      obtain ⟨l1, l2, heq, hlt, hle⟩ := pyMaxFold key fs f
      set r := fs.foldl (fun b g => if key b < key g then g else b) f with hr
      have hall : ∀ x ∈ f :: fs, key x ≤ key r := by
        rw [heq]
        intro x hx
        rcases List.mem_append.mp hx with hx1 | hx2
        · exact le_of_lt (hlt x hx1)
        · rcases List.mem_cons.mp hx2 with rfl | hx3
          · exact le_refl _
          · exact hle x hx3
      rw [heq] at hall
      simp only [pyMax, firstMaxBy, ← hr]
      rw [heq]
      refine (find?_prefix_false _ l2 r l1 ?_ ?_).symm
      · intro x hx
        rw [Bool.eq_false_iff]
        intro hcontra
        rw [List.all_eq_true] at hcontra
        have h2 := hcontra r (by simp)
        rw [decide_eq_true_eq] at h2
        exact absurd h2 (not_le.mpr (hlt x hx))
      · rw [List.all_eq_true]
        intro g hg
        rw [decide_eq_true_eq]
        exact hall g hg

theorem pyMax_none_iff {α : Type} (key : α → Int) (l : List α) :
    pyMax key l = none ↔ l = [] := by
  cases l <;> simp [pyMax]

theorem pyMax_mem {α : Type} (key : α → Int) (l : List α) (a : α)
    (h : pyMax key l = some a) : a ∈ l := by
  cases l with
  | nil => simp [pyMax] at h
  | cons f fs =>
      obtain ⟨l1, l2, heq, -, -⟩ := pyMaxFold key fs f
      simp only [pyMax, Option.some.injEq] at h
      subst h
      rw [heq]
      simp

set_option maxHeartbeats 1000000 in
theorem choose_focus_mem_five (m : Macros) (goal : String) :
    (choose_focus m goal).1 ∈
      (["strength", "hypertrophy", "conditioning", "mixed", "active recovery"] : List String) := by
  simp only [choose_focus]
  split_ifs <;> decide

set_option maxHeartbeats 1000000 in
theorem default_blocks_nonempty (focus : String) (minutes : Int) (experience : String) :
    (default_blocks_for_focus focus minutes experience).1 ≠ [] := by
  simp only [default_blocks_for_focus]
  split_ifs <;> simp

theorem candidateHits_ne_nil (term : String) (foods : List FdcHit) (h : foods ≠ []) :
    candidateHits term foods ≠ [] := by
  unfold candidateHits
  split_ifs with hf
  · exact h
  · exact hf

theorem candidateHits_subset (term : String) (foods : List FdcHit) (f : FdcHit)
    (h : f ∈ candidateHits term foods) : f ∈ foods := by
  unfold candidateHits at h
  split_ifs at h with hf
  · exact h
  · exact List.mem_of_mem_filter h

/-! ## Claims -/

/-- C1: `_choose_focus` follows the specification's ordered decision
procedure with first match winning — the goal overrides, then the
`carb_bias`/`protein_bias`/`fat_bias`/`high_sugar` heuristics, then the
all-low active-recovery fallback, then the mixed default; in particular
carbs=40, fat=5, protein=5 with goal "balance" yields conditioning. -/
theorem c1_choose_focus_follows_spec :
    (∀ (m : Macros) (goal : String), (choose_focus m goal).1 = spec_choose_focus m goal) ∧
    (choose_focus { protein_g := some 5, carbs_g := some 40, fat_g := some 5 } "balance").1
      = "conditioning" := by
  constructor
  · intro m goal
    simp only [choose_focus, spec_choose_focus, apply_ite (Prod.fst (α := String) (β := String))]
  · decide

/-- C2: for every focus in the five-value enumeration, every integer minutes
input, and every experience string, the plan builder clamps minutes into
[15, 75] before allocating block time, the emitted blocks' minute counts sum
to at most the clamped minutes, and the emitted block list has exactly one
block per allocation (including the conditional third block). -/
theorem c2_minutes_clamped_blocks_sum_le (focus : String) (minutes : Int) (experience : String)
    (hf : focus ∈ (["strength", "hypertrophy", "conditioning", "active recovery", "mixed"] :
      List String)) :
    15 ≤ clampMinutes minutes ∧ clampMinutes minutes ≤ 75 ∧
    (blockAllocs focus minutes).sum ≤ clampMinutes minutes ∧
    (default_blocks_for_focus focus minutes experience).1.length
      = (blockAllocs focus minutes).length := by
  obtain ⟨h15, h75⟩ := clampMinutes_bounds minutes
  refine ⟨h15, h75, ?_, ?_⟩
  · fin_cases hf
    · simpa only [blockAllocs, String.reduceEq, reduceIte] using
        strength_sum_le (clampMinutes minutes) h15 h75
    · simpa only [blockAllocs, String.reduceEq, reduceIte] using
        hypertrophy_sum_le (clampMinutes minutes) h15 h75
    · simpa only [blockAllocs, String.reduceEq, reduceIte] using
        conditioning_sum_le (clampMinutes minutes) h15 h75
    · simpa only [blockAllocs, String.reduceEq, reduceIte] using
        recovery_sum_le (clampMinutes minutes) h15 h75
    · simpa only [blockAllocs, String.reduceEq, reduceIte] using
        mixed_sum_le (clampMinutes minutes) h15 h75
  · fin_cases hf <;>
      · simp only [blockAllocs, default_blocks_for_focus, String.reduceEq, reduceIte]
        first
          | rfl
          | (split_ifs <;> simp)

/-- C2 witness: `build(focus="strength", minutes=100, experience="beginner")`
allocates against the clamped 75 minutes and its block minutes sum to at
most 75. -/
theorem c2_witness :
    clampMinutes 100 = 75 ∧ (blockAllocs "strength" 100).sum ≤ 75 := by
  have h := c2_minutes_clamped_blocks_sum_le "strength" 100 "beginner" (by decide)
  exact ⟨by decide, le_of_le_of_eq h.2.2.1 (by decide)⟩

/-- C3: when the separator-split path of `extract_product_search_terms_multi`
yields at least two candidates, the function returns exactly those candidates
truncated to `max_terms` — for every noun-chunk oracle, so no linguistic
chunk extraction is consulted — and the result holds at least two distinct,
stopword-stripped terms in left-to-right first-seen order. -/
theorem c3_multi_term_split_path (doc : String → SpacyDoc) (query : String) (mt : Nat)
    (h1 : 2 ≤ (splitCandidates query).length) (h2 : 2 ≤ mt) :
    extract_product_search_terms_multi doc query mt = (splitCandidates query).take mt ∧
    2 ≤ (extract_product_search_terms_multi doc query mt).length ∧
    (extract_product_search_terms_multi doc query mt).Nodup := by
  have hcond : splitCandidates query ≠ [] ∧ 1 < (splitCandidates query).length := by
    refine ⟨?_, by omega⟩
    intro h
    rw [h] at h1
    simp at h1
  have heq : extract_product_search_terms_multi doc query mt
      = (splitCandidates query).take mt := by
    simp only [extract_product_search_terms_multi]
    rw [if_pos hcond]
  refine ⟨heq, ?_, ?_⟩
  · rw [heq, List.length_take]; omega
  · rw [heq]
    exact (List.take_sublist mt _).nodup (splitCandidates_nodup query)

/-- C3 witness: `"recall on chicken and beef"` splits into two candidates and
extraction returns `["chicken", "beef"]`. -/
theorem c3_witness :
    2 ≤ (splitCandidates "recall on chicken and beef").length ∧
    extract_product_search_terms_multi emptyDoc "recall on chicken and beef" 6
      = ["chicken", "beef"] := by
  refine ⟨by decide, ?_⟩
  rw [(c3_multi_term_split_path emptyDoc "recall on chicken and beef" 6
    (by decide) (by decide)).1]
  decide

/-- C4: the macro parser resolves each key from the first non-blank line
containing one of its synonyms (first matching line wins, line order as
given), extracts the number after the first `:`/`-` delimiter with a
non-empty tail — or the first number of the whole line when there is no such
delimiter — falls back to a direct synonym-delimiter regex over the
lowercased text when no line matches, and leaves the field undefined (`none`,
not zero) when neither succeeds; the example text parses to protein=20,
carbs=35, sugars=5, fat=2 with kcal undefined. -/
theorem c4_macro_parse :
    parse_macros_from_context
        "Protein: 20 g\nCarbohydrate, by difference: 35 g\nTotal Sugars: 5 g\nTotal lipid (fat): 2 g"
      = { protein_g := some 20, carbs_g := some 35, sugars_g := some 5, fat_g := some 2,
          kcal := none } ∧
    (∀ (text : String) (keys : List String) (ln : List Char),
      find_line_for_key text keys = some ln →
        (keys.any (fun k => isSubstrL k.data (lowerL ln)) = true ∧
         ∃ l1 l2, ((splitlines text.data).map stripL).filter (fun l => l ≠ []) = l1 ++ ln :: l2 ∧
           ∀ l ∈ l1, keys.any (fun k => isSubstrL k.data (lowerL l)) = false)) ∧
    (∀ (text : String) (keys : List String) (ln : List Char),
      find_line_for_key text keys = some ln →
        grab text keys = (delimRest ln).elim (extract_number ln) extract_number) ∧
    (∀ (text : String) (keys : List String),
      (∀ k ∈ keys, isSubstrL k.data (lowerL text.data) = false) →
        grab text keys = none) := by
  refine ⟨by decide, ?_, ?_, grab_none⟩
  · intro text keys ln h
    obtain ⟨hp, l1, l2, heq, hfl⟩ := find?_split _ _ _ h
    exact ⟨hp, l1, l2, heq, hfl⟩
  · intro text keys ln h
    unfold grab
    rw [h]
    dsimp only
    cases hd : delimRest ln <;> rfl

/-- C4 witness: on `"Protein: 20 g"` the parser finds the protein line, takes
the tail after the colon, and reads 20; on a synonym-free text the kcal field
is `none`. -/
theorem c4_witness :
    grab "Protein: 20 g" KEYS_protein
        = (delimRest "Protein: 20 g".data).elim (extract_number "Protein: 20 g".data)
            extract_number ∧
    grab "Protein: 20 g" KEYS_protein = some 20 ∧
    grab "nothing nutritional here" KEYS_kcal = none := by
  refine ⟨c4_macro_parse.2.2.1 "Protein: 20 g" KEYS_protein "Protein: 20 g".data (by decide),
    by decide,
    c4_macro_parse.2.2.2 "nothing nutritional here" KEYS_kcal (by decide)⟩

/-- C5: `_score_fdc_hit` is exactly the additive sum of the literal weights
(+10 equal/starts-with, +6 description containment, +4 ingredient
containment, -2 brand present / +1 absent, +2 category containment, -3 junk
description marker), and `_pick_best_fdc_hit` returns the first candidate of
the filtered-or-fallback list attaining the maximum score (stable max); in
particular `pick_best("chicken", ...)` prefers the unbranded raw chicken
over the branded protein bar. -/
theorem c5_score_weights_and_stable_max :
    (∀ (term : String) (f : FdcHit), score_fdc_hit term f = spec_score term f) ∧
    (∀ (term : String) (foods : List FdcHit),
      pick_best_fdc_hit term foods
        = firstMaxBy (score_fdc_hit term) (candidateHits term foods)) ∧
    pick_best_fdc_hit "chicken"
        [{ description := some "Chicken breast, raw" },
         { description := some "Chicken protein bar", brandOwner := some "BrandX" }]
      = some { description := some "Chicken breast, raw" } := by
  refine ⟨?_, ?_, by decide⟩
  · intro term f
    simp only [score_fdc_hit, spec_score]
    split_ifs <;> omega
  · intro term foods
    cases foods with
    | nil => rfl
    | cons f fs =>
        simp only [pick_best_fdc_hit]
        exact pyMax_eq_firstMaxBy _ _

/-- C6 counterexample: a Macros whose only present macro field is sugars has
an undefined `estimated_kcal` (not the claimed 4·0+4·0+9·0 = 0), so "at
least one macro field present" does not suffice when that field is sugars. -/
theorem c6_counterexample :
    ({ sugars_g := some 5 } : Macros).estimated_kcal = none ∧
    ({ sugars_g := some 5 } : Macros).sugars_g ≠ none ∧
    ({ sugars_g := some 5 } : Macros).estimated_kcal ≠ some 0 := by
  exact ⟨rfl, by simp, by decide⟩

/-- C6 (amended): `estimated_kcal` equals the stored kcal when present; when
kcal is absent it equals 4·protein + 4·carbs + 9·fat (missing fields
contributing zero) provided at least one of the protein, carbs or fat fields
is present; and it is `none` when kcal is absent and protein, carbs and fat
are all absent — even when sugars is present. -/
theorem c6_estimated_kcal (m : Macros) :
    (∀ k, m.kcal = some k → m.estimated_kcal = some k) ∧
    (m.kcal = none → (m.protein_g ≠ none ∨ m.carbs_g ≠ none ∨ m.fat_g ≠ none) →
      m.estimated_kcal
        = some (4 * m.protein_g.getD 0 + 4 * m.carbs_g.getD 0 + 9 * m.fat_g.getD 0)) ∧
    (m.kcal = none → m.protein_g = none → m.carbs_g = none → m.fat_g = none →
      m.estimated_kcal = none) := by
  obtain ⟨p, c, s, f, k⟩ := m
  refine ⟨?_, ?_, ?_⟩
  · rintro k' rfl
    rfl
  · rintro rfl hany
    cases p <;> cases c <;> cases f <;> simp_all [Macros.estimated_kcal]
  · rintro rfl rfl rfl rfl
    rfl

/-- C6 witness: protein=20, carbs=35, fat=2 gives 4·20+4·35+9·2 = 238. -/
theorem c6_witness :
    ({ protein_g := some 20, carbs_g := some 35, fat_g := some 2 } : Macros).estimated_kcal
      = some 238 := by
  have h := (c6_estimated_kcal
    { protein_g := some 20, carbs_g := some 35, fat_g := some 2 }).2.1 rfl (by simp)
  rw [h]
  norm_num

/-- C7 counterexample: the plans built for a beginner and for an advanced
user have identical warm-up and cool-down lists, contradicting the claim
that they differ by experience tier. -/
theorem c7_counterexample :
    (recommend_workout_from_context "" "balance" 30 "beginner" none).warmup
        = (recommend_workout_from_context "" "balance" 30 "advanced" none).warmup ∧
    (recommend_workout_from_context "" "balance" 30 "beginner" none).cooldown
        = (recommend_workout_from_context "" "balance" 30 "advanced" none).cooldown :=
  ⟨rfl, rfl⟩

/-- C7 (amended): the warm-up and cool-down lists of the plan returned by
`recommend_workout_from_context` are fixed template lists independent of the
experience input; the experience-tiered template pair is computed inside
`_default_blocks_for_focus` (and does differ between tiers) but is not part
of that helper's return value, so it never reaches the plan. -/
theorem c7_fixed_warmup_cooldown (context goal : String) (minutes : Int) (experience : String)
    (hint : Option String) :
    (recommend_workout_from_context context goal minutes experience hint).warmup
        = ["Joint CARs (neck/shoulders/hips) 30–45s each", "Light cardio 3–5 min"] ∧
    (recommend_workout_from_context context goal minutes experience hint).cooldown
        = ["Nasal breathing 2–3 min (box or 4-7-8)", "Targeted mobility 3–5 min"] ∧
    tier_templates "beginner" ≠ tier_templates "advanced" :=
  ⟨rfl, rfl, by decide⟩

/-- C8: `_pick_best_fdc_hit` returns `none` exactly on the empty input; on
non-empty input it returns an element of the input list, scanning the
filtered candidates (description/ingredient containment, or both fields
missing) and falling back to the full unfiltered list when the filter keeps
nothing. -/
theorem c8_pick_best_total :
    (∀ (term : String) (foods : List FdcHit),
      pick_best_fdc_hit term foods = none ↔ foods = []) ∧
    (∀ (term : String) (foods : List FdcHit) (f : FdcHit),
      pick_best_fdc_hit term foods = some f → f ∈ foods) ∧
    (∀ (term : String) (foods : List FdcHit),
      filteredHits term foods = [] → candidateHits term foods = foods) ∧
    (∀ (term : String) (foods : List FdcHit) (f : FdcHit),
      f ∈ filteredHits term foods → f ∈ foods) := by
  refine ⟨?_, ?_, ?_, ?_⟩
  · intro term foods
    cases foods with
    | nil => simp [pick_best_fdc_hit]
    | cons f fs =>
        simp only [pick_best_fdc_hit, pyMax_none_iff]
        constructor
        · intro h
          exact absurd h (candidateHits_ne_nil term (f :: fs) (by simp))
        · intro h
          exact absurd h (by simp)
  · intro term foods f h
    cases foods with
    | nil => simp [pick_best_fdc_hit] at h
    | cons g gs =>
        simp only [pick_best_fdc_hit] at h
        exact candidateHits_subset term (g :: gs) f (pyMax_mem _ _ _ h)
  · intro term foods h
    unfold candidateHits
    rw [if_pos h]
  · intro term foods f h
    exact List.mem_of_mem_filter h

/-- C8 witness: on a concrete non-empty candidate list the picker returns a
member of the list and not `none`. -/
theorem c8_witness :
    pick_best_fdc_hit "chicken"
        [{ description := some "Chicken breast, raw" },
         { description := some "Chicken protein bar", brandOwner := some "BrandX" }] ≠ none ∧
    ({ description := some "Chicken breast, raw" } : FdcHit)
      ∈ [({ description := some "Chicken breast, raw" } : FdcHit),
         { description := some "Chicken protein bar", brandOwner := some "BrandX" }] := by
  constructor
  · intro h
    have h2 := (c8_pick_best_total.1 "chicken"
      [{ description := some "Chicken breast, raw" },
       { description := some "Chicken protein bar", brandOwner := some "BrandX" }]).mp h
    simp at h2
  · exact c8_pick_best_total.2.1 "chicken"
      [{ description := some "Chicken breast, raw" },
       { description := some "Chicken protein bar", brandOwner := some "BrandX" }]
      { description := some "Chicken breast, raw" } (by decide)

/-- C9: the core is total on arbitrary string input — `extract_terms` of the
empty query is the empty list (the spaCy document of the empty string being
empty); `parse_macros_from_context` of a text containing no macro synonym is
the all-undefined Macros; and `recommend_workout_from_context` returns a
complete plan (clamped minutes, a focus from the five-value enumeration,
non-empty blocks, warm-up, and cool-down) for every context string —
macro-bearing or not — and every goal, minutes and experience. -/
theorem c9_total_on_arbitrary_input (doc : String → SpacyDoc)
    (ctx goal experience : String) (minutes : Int) (hint : Option String)
    (hchunks : (doc "").chunks = []) (htoks : (doc "").posToks = []) :
    extract_product_search_terms_multi doc "" 6 = [] ∧
    ((∀ k ∈ ALL_MACRO_KEYS, isSubstrL k.data (lowerL ctx.data) = false) →
      parse_macros_from_context ctx
        = { protein_g := none, carbs_g := none, sugars_g := none, fat_g := none,
            kcal := none }) ∧
    15 ≤ (recommend_workout_from_context ctx goal minutes experience hint).minutes ∧
    (recommend_workout_from_context ctx goal minutes experience hint).minutes ≤ 75 ∧
    (recommend_workout_from_context ctx goal minutes experience hint).focus ∈
        (["strength", "hypertrophy", "conditioning", "mixed", "active recovery"] : List String) ∧
    (recommend_workout_from_context ctx goal minutes experience hint).blocks ≠ [] ∧
    (recommend_workout_from_context ctx goal minutes experience hint).warmup ≠ [] ∧
    (recommend_workout_from_context ctx goal minutes experience hint).cooldown ≠ [] := by
  refine ⟨?_, fun hctx => parse_macros_none ctx hctx, ?_, ?_, ?_, ?_,
    by simp [recommend_workout_from_context], by simp [recommend_workout_from_context]⟩
  case refine_2 =>
    simpa only [recommend_workout_from_context] using (clampMinutes_bounds minutes).1
  case refine_3 =>
    simpa only [recommend_workout_from_context] using (clampMinutes_bounds minutes).2
  case refine_4 =>
    simpa only [recommend_workout_from_context] using
      choose_focus_mem_five (parse_macros_from_context ctx) goal
  case refine_5 =>
    simpa only [recommend_workout_from_context] using
      default_blocks_nonempty (choose_focus (parse_macros_from_context ctx) goal).1
        minutes experience
  have hsc : splitCandidates "" = [] := by decide
  have h0 : pyLower (pyStrip "") = "" := by decide
  simp only [extract_product_search_terms_multi, hsc, h0, hchunks, htoks]
  decide

/-- C9 witness: the empty oracle, the empty context, and the macro-bearing
context `"Protein: 20 g"` instantiate every hypothesis concretely. -/
theorem c9_witness :
    extract_product_search_terms_multi emptyDoc "" 6 = [] ∧
    parse_macros_from_context ""
      = { protein_g := none, carbs_g := none, sugars_g := none, fat_g := none, kcal := none } ∧
    (recommend_workout_from_context "Protein: 20 g" "balance" 30 "beginner" none).blocks
      ≠ [] := by
  have h := c9_total_on_arbitrary_input emptyDoc "" "balance" "beginner" 30 none rfl rfl
  have h2 := c9_total_on_arbitrary_input emptyDoc "Protein: 20 g" "balance" "beginner" 30 none
    rfl rfl
  exact ⟨h.1, h.2.1 (by decide), h2.2.2.2.2.2.1⟩

/-- C10: undefined macro fields are substituted with 0.0 in every threshold
comparison of the focus selector: a Macros with all four macro fields
undefined, together with any goal not normalizing into the three override
lists, selects the active-recovery focus through the all-macros-low branch. -/
theorem c10_all_undefined_active_recovery (m : Macros) (goal : String)
    (hp : m.protein_g = none) (hc : m.carbs_g = none) (hs : m.sugars_g = none)
    (hf : m.fat_g = none)
    (hg : pyLower (if goal = "" then "balance" else goal) ∉
        (["strength", "power", "fat loss", "cut", "lean", "conditioning",
          "muscle", "hypertrophy", "build"] : List String)) :
    (choose_focus m goal).1 = "active recovery" := by
  simp only [List.mem_cons, List.not_mem_nil, or_false, not_or] at hg
  obtain ⟨g1, g2, g3, g4, g5, g6, g7, g8, g9⟩ := hg
  simp only [choose_focus, hp, hc, hs, hf, Option.getD_none, List.mem_cons, List.not_mem_nil,
    or_false]
  rw [if_neg (by tauto), if_neg (by tauto), if_neg (by tauto)]
  norm_num

/-- C10 witness: the all-undefined parse of an empty context with goal
"balance" lands in active recovery. -/
theorem c10_witness : (choose_focus {} "balance").1 = "active recovery" :=
  c10_all_undefined_active_recovery {} "balance" rfl rfl rfl rfl (by decide)

end Datathon
